import Mathlib

/-
Verification development for the gravitas gameplay module
(src/screen_gameplay.c).  The C code is shallowly embedded: the global
entity array becomes a list, machine floats become elements of a linear
ordered field `K` (instantiated at `ℚ` for exact evaluation and at `ℝ`
for the geometric claims, where the square root is passed explicitly),
pointer-returning lookups become `Option`, and the NULL dereferences of
`GetPlayerEntity` become `none` results.
-/

set_option linter.unusedSectionVars false

namespace Gravitas

/-- raylib `Vector2`, a pair of scalars. -/
structure Vector2 (K : Type) where
  x : K
  y : K
deriving DecidableEq

/-- raylib `Rectangle`: origin plus (possibly negative) width and height. -/
structure Rectangle (K : Type) where
  x : K
  y : K
  width : K
  height : K
deriving DecidableEq

/-- raylib `Color` (r, g, b, a bytes); carried but never computed with here. -/
structure Color where
  r : Nat
  g : Nat
  b : Nat
  a : Nat
deriving DecidableEq

variable {K : Type} [LinearOrderedField K]

/-- `clamp` from screen_gameplay.c lines 279-290: min first, then max. -/
def clamp (value mn mx : K) : K :=
  if value < mn then mn
  else if mx < value then mx
  else value

/-- raymath `Lerp(start, end, amount) = start + amount*(end - start)`. -/
def Lerp (start stop amount : K) : K :=
  start + amount * (stop - start)

/-- raymath `Vector2Add`. -/
def Vector2Add (a b : Vector2 K) : Vector2 K :=
  ⟨a.x + b.x, a.y + b.y⟩

/-- raymath `Vector2Subtract`. -/
def Vector2Subtract (a b : Vector2 K) : Vector2 K :=
  ⟨a.x - b.x, a.y - b.y⟩

/-- raymath `Vector2Scale`. -/
def Vector2Scale (v : Vector2 K) (s : K) : Vector2 K :=
  ⟨v.x * s, v.y * s⟩

/-- raymath `Vector2DotProduct`. -/
def Vector2DotProduct (a b : Vector2 K) : K :=
  a.x * b.x + a.y * b.y

/-- raymath `Vector2Length`; the square root is passed explicitly so the
definition stays scalar-generic (instantiated with `Real.sqrt` at `ℝ`). -/
def Vector2Length (sqrt : K → K) (v : Vector2 K) : K :=
  sqrt (v.x * v.x + v.y * v.y)

/-- raymath `Vector2Distance`. -/
def Vector2Distance (sqrt : K → K) (a b : Vector2 K) : K :=
  sqrt ((a.x - b.x) * (a.x - b.x) + (a.y - b.y) * (a.y - b.y))

/-- raymath `Vector2Normalize`: zero below or at zero length, otherwise the
componentwise division by the length. -/
def Vector2Normalize (sqrt : K → K) (v : Vector2 K) : Vector2 K :=
  let length := Vector2Length sqrt v
  if 0 < length then ⟨v.x / length, v.y / length⟩ else ⟨0, 0⟩

/-- raymath `Vector2Reflect(v, normal) = v - 2*(v . normal)*normal`. -/
def Vector2Reflect (v normal : Vector2 K) : Vector2 K :=
  Vector2Subtract v (Vector2Scale normal (2 * Vector2DotProduct v normal))

/-- `struct KinematicInfo` (screen_gameplay.c lines 37-42). -/
structure KinematicInfo (K : Type) where
  vel : Vector2 K
  pos : Vector2 K
  onGround : Bool
deriving DecidableEq

/-- `struct PlayerData` (lines 45-50). -/
structure PlayerData (K : Type) where
  k : KinematicInfo K
  grabbedEntity : Int
  health : K
deriving DecidableEq

/-- `struct FireData` (lines 53-58). -/
structure FireData (K : Type) where
  rect : Rectangle K
  fireLeft : K
  fireParticleTimer : K
deriving DecidableEq

/-- `struct ExtinguisherData` (lines 59-63). -/
structure ExtinguisherData (K : Type) where
  info : KinematicInfo K
  amountLeft : K
deriving DecidableEq

/-- The tagged union payload of `struct Entity` (lines 85-98).  The C code
stores a separate tag (`enum Type`); in the embedding the tag is derived
from the payload, which bakes in the tag/payload consistency the C code
maintains. -/
inductive EntityData (K : Type) where
  | player (d : PlayerData K)
  | obstacle (r : Rectangle K)
  | ground (r : Rectangle K)
  | extinguisher (d : ExtinguisherData K)
  | fire (d : FireData K)
deriving DecidableEq

/-- `enum Type` (lines 66-76). -/
inductive EType where
  | player
  | obstacle
  | ground
  | extinguisher
  | fire
deriving DecidableEq

/-- `struct Entity` (lines 85-98): id plus tagged payload. -/
structure Entity (K : Type) where
  id : Int
  data : EntityData K
deriving DecidableEq

/-- The `type` tag of an entity, derived from the payload. -/
def EntityData.toType : EntityData K → EType
  | .player _ => .player
  | .obstacle _ => .obstacle
  | .ground _ => .ground
  | .extinguisher _ => .extinguisher
  | .fire _ => .fire

/-- `entity.type` in the C code. -/
def Entity.type (e : Entity K) : EType :=
  e.data.toType

/-- The relevant mutable globals of screen_gameplay.c: the `entities`
array with `entitiesLen` (a list), `curNextEntityID`, `spawnPoint` and
`camera.target`. -/
structure GState (K : Type) where
  entities : List (Entity K)
  curNextEntityID : Int
  spawnPoint : Vector2 K
  cameraTarget : Vector2 K
deriving DecidableEq

/-- Loop body accumulator for `GetEntityIndex` (lines 145-155): scans with
a running index `i` and returns the first index whose id matches, else -1. -/
def GetEntityIndexAux : List (Entity K) → Int → Nat → Int
  | [], _, _ => -1
  | e :: rest, id, i => if e.id = id then (i : Int) else GetEntityIndexAux rest id (i + 1)

/-- `GetEntityIndex` (lines 145-155). -/
def GetEntityIndex (entities : List (Entity K)) (id : Int) : Int :=
  GetEntityIndexAux entities id 0

/-- `GetEntity` (lines 157-166): NULL becomes `none`, a valid pointer
becomes `some` of the stored record. -/
def GetEntity (entities : List (Entity K)) (id : Int) : Option (Entity K) :=
  let index := GetEntityIndex entities id
  if index = -1 then none else entities.get? index.toNat

/-- `GetPlayerEntity` (lines 168-179): first entity whose type is Player,
NULL (`none`) otherwise. -/
def GetPlayerEntity : List (Entity K) → Option (Entity K)
  | [] => none
  | e :: rest => if e.type = EType.player then some e else GetPlayerEntity rest

/-- Reading `->player` through the union of an entity. -/
def playerUnionRead (e : Entity K) : Option (PlayerData K) :=
  match e.data with
  | .player d => some d
  | _ => none

/-- `GetPlayerEntity()->player`: the player payload of the first
Player-typed entity, `none` when `GetPlayerEntity` is NULL. -/
def GetPlayerEntityData (entities : List (Entity K)) : Option (PlayerData K) :=
  (GetPlayerEntity entities).bind playerUnionRead

/-- `GetPlayerEntity()->player.k.pos = p`: write through the first-player
pointer (a no-op on a store without a player would be a NULL dereference;
callers below return `none` in that case before reaching the write). -/
def setFirstPlayerPos : List (Entity K) → Vector2 K → List (Entity K)
  | [], _ => []
  | e :: rest, p =>
    match e.data with
    | .player d => { e with data := EntityData.player { d with k := { d.k with pos := p } } } :: rest
    | _ => e :: setFirstPlayerPos rest p

/-- `GetPlayerEntity()->player.health = h`, by the same convention. -/
def setFirstPlayerHealth : List (Entity K) → K → List (Entity K)
  | [], _ => []
  | e :: rest, h =>
    match e.data with
    | .player d => { e with data := EntityData.player { d with health := h } } :: rest
    | _ => e :: setFirstPlayerHealth rest h

/-- `DeleteEntityIndex` (lines 181-188): shift every element after `index`
left by one and shrink the length. -/
def DeleteEntityIndex : List (Entity K) → Nat → List (Entity K)
  | [], _ => []
  | _ :: rest, 0 => rest
  | e :: rest, i + 1 => e :: DeleteEntityIndex rest i

/-- `DeleteEntity` (lines 190-197). -/
def DeleteEntity (entities : List (Entity K)) (id : Int) : List (Entity K) :=
  let index := GetEntityIndex entities id
  if index = -1 then entities else DeleteEntityIndex entities index.toNat

/-- `AddEntity` (lines 199-206): stamp the next id, bump the counter and
write at index `entitiesLen` (no capacity check; the in-bounds variant is
modelled separately for the safety claim). -/
def AddEntity (s : GState K) (e : Entity K) : GState K :=
  let e2 := { e with id := s.curNextEntityID }
  { s with entities := s.entities ++ [e2], curNextEntityID := s.curNextEntityID + 1 }

/-- `SaveEntities` (lines 208-211): the level file is the raw sequence of
entity records. -/
def SaveEntities (s : GState K) : List (Entity K) :=
  s.entities

/-- `LoadEntities` (lines 212-239): copy the records, fold `max` of the
ids into `curNextEntityID` starting from its current value, add one, then
read and write through `GetPlayerEntity()` (NULL dereference = `none`):
optionally record the spawn point, overwrite the player position with the
spawn point, and aim the camera at it. -/
def LoadEntities (file : List (Entity K)) (s : GState K) (setSpawnPoint : Bool) :
    Option (GState K) :=
  let newEntities := file
  let curNext := (file.foldl (fun acc e => max acc e.id) s.curNextEntityID) + 1
  match GetPlayerEntityData newEntities with
  | none => none
  | some d =>
    let sp := if setSpawnPoint then d.k.pos else s.spawnPoint
    some { entities := setFirstPlayerPos newEntities sp,
           curNextEntityID := curNext,
           spawnPoint := sp,
           cameraTarget := sp }

/-- The death check of `UpdateGameplayScreen` (lines 587-593): dereference
`GetPlayerEntity()` to read the health; when it is at or below zero,
reload the level (spawn point kept) and set the player health to 1. -/
def deathReloadCheck (s : GState K) (file : List (Entity K)) : Option (GState K) :=
  (GetPlayerEntityData s.entities).bind fun d =>
    if d.health ≤ 0 then
      (LoadEntities file s false).map fun s2 =>
        { s2 with entities := setFirstPlayerHealth s2.entities 1 }
    else some s

/-- `const float player_radius = 18.0` (line 33). -/
def player_radius (K : Type) [LinearOrderedField K] : K :=
  18

/-- `FixNegativeRect` (lines 355-368): fold a negative width or height
into the origin. -/
def FixNegativeRect (rect : Rectangle K) : Rectangle K :=
  let r1 :=
    if rect.width < 0 then
      { rect with x := rect.x + rect.width, width := rect.width * (-1) }
    else rect
  if r1.height < 0 then
    { r1 with y := r1.y + r1.height, height := r1.height * (-1) }
  else r1

/-- raylib `CheckCollisionPointRec`: half-open containment test. -/
def CheckCollisionPointRec (point : Vector2 K) (rec : Rectangle K) : Bool :=
  decide (rec.x ≤ point.x) && decide (point.x < rec.x + rec.width) &&
    decide (rec.y ≤ point.y) && decide (point.y < rec.y + rec.height)

/-- `RectHasPoint` (lines 370-375): normalize the rectangle first. -/
def RectHasPoint (rect : Rectangle K) (point : Vector2 K) : Bool :=
  CheckCollisionPointRec point (FixNegativeRect rect)

/-- Lines 388-392 of `GlideAndBounce`: the closest point of the (already
sign-normalized) rectangle to `pos`, computed by clamping the offset from
the rectangle center. -/
def closestPointOnRect (obstacle : Rectangle K) (pos : Vector2 K) : Vector2 K :=
  let obstacleCenter : Vector2 K :=
    ⟨obstacle.x + obstacle.width / 2, obstacle.y + obstacle.height / 2⟩
  let fromObstacleCenter := Vector2Subtract pos obstacleCenter
  let clamped : Vector2 K :=
    ⟨clamp fromObstacleCenter.x (-(obstacle.width / 2)) (obstacle.width / 2),
     clamp fromObstacleCenter.y (-(obstacle.height / 2)) (obstacle.height / 2)⟩
  Vector2Add clamped obstacleCenter

/-- One iteration of the `GlideAndBounce` entity loop (lines 380-407):
Obstacle entities push the position out along the closest-point normal and
reflect the velocity; Ground entities set the onGround flag (reading the
rectangle through the union as the C code does); others are skipped. -/
def glideStep (sqrt : K → K) (bounceFactor : K) (k : KinematicInfo K) (e : Entity K) :
    KinematicInfo K :=
  match e.data with
  | .obstacle obstacleRect =>
    let obstacle := FixNegativeRect obstacleRect
    let closestPointOnObstacle := closestPointOnRect obstacle k.pos
    if Vector2Distance sqrt closestPointOnObstacle k.pos < player_radius K then
      let normal := Vector2Normalize sqrt (Vector2Subtract k.pos closestPointOnObstacle)
      { k with
        pos := Vector2Add closestPointOnObstacle (Vector2Scale normal (player_radius K)),
        vel := Vector2Scale (Vector2Reflect k.vel normal) bounceFactor }
    else k
  | .ground groundRect =>
    if RectHasPoint groundRect k.pos then { k with onGround := true } else k
  | _ => k

/-- `GlideAndBounce` (lines 377-409): reset onGround, then fold the entity
loop over the store. -/
def GlideAndBounce (sqrt : K → K) (entities : List (Entity K)) (k : KinematicInfo K)
    (bounceFactor : K) : KinematicInfo K :=
  entities.foldl (fun k2 e => glideStep sqrt bounceFactor k2 e) { k with onGround := false }

/-- Distance from a point to (the closest point of) a rectangle, the
quantity claim C2 speaks about, oriented as the code's
`Vector2Distance(closestPointOnObstacle, k.pos)`. -/
def distToRect (sqrt : K → K) (r : Rectangle K) (p : Vector2 K) : K :=
  Vector2Distance sqrt (closestPointOnRect r p) p

/-- The rectangles of the Obstacle entities of a store, in order. -/
def obstacleRects (entities : List (Entity K)) : List (Rectangle K) :=
  entities.filterMap fun e =>
    match e.data with
    | .obstacle r => some r
    | _ => none

/-- `enum ParticleType` (lines 101-104). -/
inductive ParticleType where
  | retardantParticle
  | fireParticle
deriving DecidableEq

/-- `struct Particle` (lines 105-113). -/
structure Particle (K : Type) where
  pos : Vector2 K
  vel : Vector2 K
  lifetime : K
  max_lifetime : K
  color : Color
  type : ParticleType
deriving DecidableEq

/-- `MAX_PARTICLES` (line 133). -/
def MAX_PARTICLES : Nat := 1000

/-- `SpawnParticle` (lines 138-143): advance the ring index and overwrite
that slot. -/
def SpawnParticle (particles : Array (Particle K)) (curParticleIndex : Nat) (p : Particle K) :
    Array (Particle K) × Nat :=
  let newParticleIndex := (curParticleIndex + 1) % MAX_PARTICLES
  (particles.setD newParticleIndex p, newParticleIndex)

/-- The inner entity loop of the particle pass (lines 687-699): an
Obstacle containing the particle zeroes its velocity and breaks; a Fire
rectangle containing a retardant particle zeroes the velocity, halves the
lifetime and bleeds the fire's `fireLeft` (clamped), without breaking.
Returns the updated particle together with the (possibly fire-modified)
remaining store suffix appended back. -/
def particleHitEntities : List (Entity K) → Particle K → Particle K × List (Entity K)
  | [], p => (p, [])
  | e :: rest, p =>
    match e.data with
    | .obstacle r =>
      if RectHasPoint r p.pos then ({ p with vel := ⟨0, 0⟩ }, e :: rest)
      else
        let r2 := particleHitEntities rest p
        (r2.1, e :: r2.2)
    | .fire fd =>
      if p.type = ParticleType.retardantParticle && RectHasPoint fd.rect p.pos then
        let p2 := { p with vel := (⟨0, 0⟩ : Vector2 K), lifetime := p.lifetime / 2 }
        let fd2 := { fd with fireLeft := clamp (fd.fireLeft - 1 / 1000) 0 1 }
        let r2 := particleHitEntities rest p2
        (r2.1, { e with data := EntityData.fire fd2 } :: r2.2)
      else
        let r2 := particleHitEntities rest p
        (r2.1, e :: r2.2)
    | _ =>
      let r2 := particleHitEntities rest p
      (r2.1, e :: r2.2)

/-- One slot of the particle-processing pass (lines 681-702): slots whose
lifetime is at or below zero are skipped; live slots run the entity loop,
then lose `dt` of lifetime and advect by their velocity. -/
def processParticle (entities : List (Entity K)) (p : Particle K) (dt : K) :
    Particle K × List (Entity K) :=
  if p.lifetime ≤ 0 then (p, entities)
  else
    let r1 := particleHitEntities entities p
    ({ r1.1 with
        lifetime := r1.1.lifetime - dt,
        pos := Vector2Add r1.1.pos (Vector2Scale r1.1.vel dt) },
     r1.2)

/-- The fire scan of the Player case of `ProcessEntity` (lines 435-443):
first Fire entity whose rectangle contains the player position yields
(inFire, its fireLeft); otherwise (false, 0). -/
def playerFireScan : List (Entity K) → Vector2 K → Bool × K
  | [], _ => (false, 0)
  | e :: rest, pos =>
    match e.data with
    | .fire fd => if RectHasPoint fd.rect pos then (true, fd.fireLeft) else playerFireScan rest pos
    | _ => playerFireScan rest pos

/-- The health adjustment of the Player case of `ProcessEntity`
(lines 435-456): fire damage interpolated by the fire's remaining
strength, off-ground decay, or on-ground regeneration, then a clamp to
[0, 1].  The C constants 0.5, 2.5 and 3.0 appear as rationals. -/
def playerHealthStep (entities : List (Entity K)) (pos : Vector2 K) (onGround : Bool)
    (health dt : K) : K :=
  let scan := playerFireScan entities pos
  let h2 :=
    if scan.1 then health - Lerp (dt / (1 / 2)) (dt / (5 / 2)) (1 - scan.2)
    else if !onGround then health - dt / 3
    else health + dt / (1 / 2)
  clamp h2 0 1

/-- The capacity of the `entities` array (line 128: `Entity entities[100]`). -/
def entityCapacity : Nat := 100

/-- `sizeof(Entity)`: 4 (id) + 4 (tag) + 256 (the `int empty_data[64]`
union arm) bytes. -/
def entitySizeBytes : Nat := 264

/-- The record count `bytesRead / sizeof(Entity)` that `LoadEntities`
copies (line 216). -/
def loadRecordCount (bytesRead : Nat) : Nat :=
  bytesRead / entitySizeBytes

/-- A bounds-checked array write: `none` models an out-of-bounds store. -/
def arraySet (a : Array (Entity K)) (i : Nat) (e : Entity K) : Option (Array (Entity K)) :=
  if h : i < a.size then some (a.set ⟨i, h⟩ e) else none

/-- The single write `entities[entitiesLen] = e` performed by `AddEntity`
(line 203), against the real fixed-size array. -/
def AddEntityWrite (a : Array (Entity K)) (entitiesLen : Nat) (curNextEntityID : Int)
    (e : Entity K) : Option (Array (Entity K)) :=
  arraySet a entitiesLen { e with id := curNextEntityID }

/-- The sequence of writes `entities[i] = ((Entity*)data)[i]` performed by
the `LoadEntities` copy loop (lines 216-220), starting at index `i`. -/
def loadWrites (a : Array (Entity K)) (i : Nat) : List (Entity K) → Option (Array (Entity K))
  | [] => some a
  | e :: rest => (arraySet a i e).bind fun a2 => loadWrites a2 (i + 1) rest

/-- A session: the gameplay globals plus the single level file the code
reads and writes (`resources/saved.level`); `none` = file absent. -/
structure Session (K : Type) where
  state : GState K
  file : Option (List (Entity K))
deriving DecidableEq

/-- The store operations of claim C4, plus the save that produces the
files loads read back. -/
inductive Op (K : Type) where
  | add (e : Entity K)
  | delete (id : Int)
  | save
  | load (setSpawnPoint : Bool)
deriving DecidableEq

/-- Apply one operation.  `load` on an absent file mirrors
`LoadFileData` returning NULL with 0 bytes (an empty record list), and a
load whose records lack a Player crashes (`none`), as in C9. -/
def applyOp (s : Session K) : Op K → Option (Session K)
  | .add e => some { s with state := AddEntity s.state e }
  | .delete id =>
    some { s with state := { s.state with entities := DeleteEntity s.state.entities id } }
  | .save => some { s with file := some s.state.entities }
  | .load flag =>
    (LoadEntities (s.file.getD []) s.state flag).map fun st => { s with state := st }

/-- Run a list of operations. -/
def runOps (s : Session K) : List (Op K) → Option (Session K)
  | [] => some s
  | op :: rest =>
    match applyOp s op with
    | none => none
    | some s2 => runOps s2 rest

/-- All ids in a store are pairwise distinct. -/
def idsDistinct (entities : List (Entity K)) : Prop :=
  (entities.map Entity.id).Nodup

/-- The id discipline the session maintains: store ids distinct and below
the counter, and any saved file has distinct ids. -/
def sessionInv (s : Session K) : Prop :=
  idsDistinct s.state.entities ∧
    (∀ e ∈ s.state.entities, e.id < s.state.curNextEntityID) ∧
    match s.file with
    | none => True
    | some l => idsDistinct l

/-- The default player record of `InitGameplayScreen` (lines 328-338). -/
def demoPlayerData : PlayerData ℚ :=
  { k := { vel := ⟨0, 0⟩, pos := ⟨200, 300⟩, onGround := false },
    grabbedEntity := -1,
    health := 1 }

/-- The default player entity of `InitGameplayScreen`. -/
def demoPlayer : Entity ℚ :=
  ⟨0, EntityData.player demoPlayerData⟩

/-- The default obstacle entity of `InitGameplayScreen` (lines 339-348). -/
def demoObstacle : Entity ℚ :=
  ⟨1, EntityData.obstacle ⟨100, 400, 100, 200⟩⟩

/-- A state like the fresh-level branch of `InitGameplayScreen`, except
that the recorded spawn point differs from the saved player position (as
happens once the player touches any ground away from the spawn). -/
def demoState : GState ℚ :=
  { entities := [demoPlayer, demoObstacle],
    curNextEntityID := 2,
    spawnPoint := ⟨0, 0⟩,
    cameraTarget := ⟨0, 0⟩ }

/-- A session starting from `demoState` with no file written yet. -/
def demoSession : Session ℚ :=
  { state := demoState, file := none }

/-- Save, create three more entities, then reload: the reload is forced to
pick its counter above the ids created after the save. -/
def c4Ops : List (Op ℚ) :=
  [Op.save, Op.add demoObstacle, Op.add demoObstacle, Op.add demoObstacle, Op.load false]

/-- The demo player at zero health. -/
def demoDeadPlayer : Entity ℚ :=
  ⟨0, EntityData.player { demoPlayerData with health := 0 }⟩

/-- `demoState` with the player dead, about to trigger the death reload. -/
def demoDeadState : GState ℚ :=
  { demoState with entities := [demoDeadPlayer, demoObstacle] }

/-- A freshly sprayed retardant particle (lines 504-511). -/
def demoParticle : Particle ℚ :=
  { pos := ⟨0, 0⟩, vel := ⟨1, 0⟩, lifetime := 3, max_lifetime := 3,
    color := ⟨255, 255, 255, 255⟩, type := ParticleType.retardantParticle }

/-- A fire entity whose rectangle contains the origin. -/
def demoFireEntity : Entity ℚ :=
  ⟨2, EntityData.fire { rect := ⟨-10, -10, 20, 20⟩, fireLeft := 1, fireParticleTimer := 0 }⟩

/-- A completely full entity array (all 100 slots used). -/
def fullArray : Array (Entity ℚ) :=
  Array.mkArray entityCapacity demoObstacle

/-- An obstacle spanning [0,100]x[0,100], for the C2 counterexample. -/
def cexRectInside : Rectangle ℝ := ⟨0, 0, 100, 100⟩

/-- A store holding only that obstacle. -/
def cexStoreInside : List (Entity ℝ) := [⟨0, EntityData.obstacle cexRectInside⟩]

/-- A kinematic state whose position sits at the obstacle's center. -/
def cexKinInside : KinematicInfo ℝ :=
  { vel := ⟨0, 0⟩, pos := ⟨50, 50⟩, onGround := false }

/-- A small obstacle [0,10]x[0,10]. -/
def cexRectA : Rectangle ℝ := ⟨0, 0, 10, 10⟩

/-- A large obstacle [30,130]x[-50,50] to the right of `cexRectA`. -/
def cexRectB : Rectangle ℝ := ⟨30, -50, 100, 100⟩

/-- A store holding the two obstacles in order. -/
def cexStoreAB : List (Entity ℝ) :=
  [⟨0, EntityData.obstacle cexRectA⟩, ⟨1, EntityData.obstacle cexRectB⟩]

/-- A position between the two obstacles, outside both. -/
def cexKinAB : KinematicInfo ℝ :=
  { vel := ⟨0, 0⟩, pos := ⟨25, 5⟩, onGround := false }

/-- The witness store for the amended C2: one obstacle. -/
def wRect : Rectangle ℝ := ⟨0, 0, 100, 100⟩

/-- Witness store holding only `wRect`. -/
def wStore : List (Entity ℝ) := [⟨0, EntityData.obstacle wRect⟩]

/-- Witness kinematic state, well outside `wRect`. -/
def wKin : KinematicInfo ℝ :=
  { vel := ⟨0, 0⟩, pos := ⟨200, 50⟩, onGround := false }

/-
Theorems.
-/

/-- Characterization of the `GetEntityIndex` scan loop, generalized over
the running index: either no id matches (result -1), or the result is the
running index plus the offset of the first match. -/
theorem GetEntityIndexAux_spec (id : Int) :
    ∀ (l : List (Entity K)) (i : Nat),
      (GetEntityIndexAux l id i = -1 ∧ ∀ e ∈ l, e.id ≠ id) ∨
      (∃ n : Nat, GetEntityIndexAux l id i = ((i + n : Nat) : Int) ∧
        (∃ e, l.get? n = some e ∧ e.id = id) ∧
        ∀ m, m < n → ∀ e2, l.get? m = some e2 → e2.id ≠ id) := by
  intro l
  induction l with
  | nil =>
    intro i
    exact Or.inl ⟨rfl, by simp⟩
  | cons e rest ih =>
    intro i
    by_cases he : e.id = id
    · refine Or.inr ⟨0, ?_, ⟨e, rfl, he⟩, ?_⟩
      · simp [GetEntityIndexAux, he]
      · intro m hm
        exact absurd hm (Nat.not_lt_zero m)
    · rcases ih (i + 1) with ⟨h1, h2⟩ | ⟨n, h1, h2, h3⟩
      · refine Or.inl ⟨?_, ?_⟩
        · simp [GetEntityIndexAux, he, h1]
        · intro x hx
          rcases List.mem_cons.mp hx with rfl | hx
          · exact he
          · exact h2 x hx
      · refine Or.inr ⟨n + 1, ?_, ?_, ?_⟩
        · rw [GetEntityIndexAux, if_neg he, h1]
          congr 1
          omega
        · simpa using h2
        · intro m hm e2 hme2
          match m, hme2 with
          | 0, hme2 =>
            simp only [List.get?] at hme2
            cases hme2
            exact he
          | m + 1, hme2 =>
            exact h3 m (by omega) e2 (by simpa using hme2)

/-- Claim C6: entity lookup is a first-match linear scan with an explicit
not-found result: `GetEntityIndex` returns the index of the first entity
whose id equals the argument and -1 when there is none, and `GetEntity`
returns NULL (`none`) exactly when `GetEntityIndex` returns -1, otherwise
the entity at that index. -/
theorem GetEntity_def (l : List (Entity K)) (id : Int) :
    GetEntity l id =
      if GetEntityIndex l id = -1 then none else l.get? (GetEntityIndex l id).toNat := rfl

theorem c6_lookup_spec (l : List (Entity ℚ)) (id : Int) :
    (GetEntityIndex l id = -1 ↔ ∀ e ∈ l, e.id ≠ id) ∧
    (∀ n : Nat, GetEntityIndex l id = (n : Int) →
      (∃ e, l.get? n = some e ∧ e.id = id) ∧
      (∀ m, m < n → ∀ e2, l.get? m = some e2 → e2.id ≠ id) ∧
      GetEntity l id = l.get? n) ∧
    (GetEntity l id = none ↔ GetEntityIndex l id = -1) := by
  have hspec := GetEntityIndexAux_spec id l 0
  simp only [Nat.zero_add] at hspec
  have hidx : GetEntityIndex l id = GetEntityIndexAux l id 0 := rfl
  refine ⟨?_, ?_, ?_⟩
  · constructor
    · intro h1
      rcases hspec with ⟨_, h2⟩ | ⟨n, hn, _, _⟩
      · exact h2
      · exfalso
        rw [hidx, hn] at h1
        omega
    · intro h1
      rcases hspec with ⟨h2, _⟩ | ⟨n, _, ⟨e, hget, heid⟩, _⟩
      · rw [hidx, h2]
      · exact absurd heid (h1 e (List.get?_mem hget))
  · intro n hn
    rcases hspec with ⟨h2, _⟩ | ⟨n2, hn2, hmatch, hfirst⟩
    · exfalso
      rw [hidx, h2] at hn
      omega
    · rw [hidx, hn2] at hn
      have heq : n2 = n := by exact_mod_cast hn
      subst heq
      refine ⟨hmatch, hfirst, ?_⟩
      rw [GetEntity_def, hidx, hn2, if_neg (by omega)]
      exact rfl
  · constructor
    · intro h1
      rcases hspec with ⟨h2, _⟩ | ⟨n, hn, ⟨e, hget, _⟩, _⟩
      · rw [hidx, h2]
      · exfalso
        rw [GetEntity_def, hidx, hn, if_neg (by omega)] at h1
        have hsame : l.get? ((n : Int)).toNat = l.get? n := rfl
        rw [hsame, hget] at h1
        cases h1
    · intro h1
      rw [GetEntity_def, h1]
      simp

/-- Applying `c6_lookup_spec` at a concrete store: id 5 is absent, id 1
is found with its record. -/
theorem c6_lookup_witness :
    GetEntityIndex [demoPlayer, demoObstacle] 5 = -1 ∧
    GetEntity [demoPlayer, demoObstacle] 1 = [demoPlayer, demoObstacle].get? 1 :=
  ⟨(c6_lookup_spec [demoPlayer, demoObstacle] 5).1.mpr (by decide),
   ((c6_lookup_spec [demoPlayer, demoObstacle] 1).2.1 1 (by decide)).2.2⟩

theorem DeleteEntity_def (l : List (Entity K)) (id : Int) :
    DeleteEntity l id =
      if GetEntityIndex l id = -1 then l
      else DeleteEntityIndex l (GetEntityIndex l id).toNat := rfl

theorem DeleteEntityIndex_eq (l : List (Entity K)) :
    ∀ n, DeleteEntityIndex l n = l.take n ++ l.drop (n + 1) := by
  induction l with
  | nil =>
    intro n
    simp [DeleteEntityIndex]
  | cons e rest ih =>
    intro n
    cases n with
    | zero => simp [DeleteEntityIndex]
    | succ m => simp [DeleteEntityIndex, ih m]

/-- Claim C7: deleting by id removes exactly the first entity with that
id: the count drops by one and the remaining records keep their values
and relative order (`take n ++ drop (n+1)`); with no matching id the
store is unchanged. -/
theorem c7_delete_spec (l : List (Entity ℚ)) (id : Int) :
    ((∀ e ∈ l, e.id ≠ id) → DeleteEntity l id = l) ∧
    (∀ n : Nat, GetEntityIndex l id = (n : Int) →
      (∃ e, l.get? n = some e ∧ e.id = id) ∧
      (∀ m, m < n → ∀ e2, l.get? m = some e2 → e2.id ≠ id) ∧
      DeleteEntity l id = l.take n ++ l.drop (n + 1) ∧
      (DeleteEntity l id).length + 1 = l.length) := by
  have hspec := GetEntityIndexAux_spec id l 0
  simp only [Nat.zero_add] at hspec
  have hidx : GetEntityIndex l id = GetEntityIndexAux l id 0 := rfl
  constructor
  · intro hnone
    rcases hspec with ⟨h1, _⟩ | ⟨n, _, ⟨e, hget, heid⟩, _⟩
    · rw [DeleteEntity_def, hidx, h1]
      simp
    · exact absurd heid (hnone e (List.get?_mem hget))
  · intro n hn
    rcases hspec with ⟨h1, _⟩ | ⟨n2, hn2, hmatch, hfirst⟩
    · exfalso
      rw [hidx, h1] at hn
      omega
    · rw [hidx, hn2] at hn
      have heq : n2 = n := by exact_mod_cast hn
      subst heq
      obtain ⟨e, hget, heid⟩ := hmatch
      have hlen : n2 < l.length := by
        by_contra hge
        push_neg at hge
        rw [List.get?_eq_none.mpr hge] at hget
        cases hget
      have hdel : DeleteEntity l id = l.take n2 ++ l.drop (n2 + 1) := by
        rw [DeleteEntity_def, hidx, hn2, if_neg (by omega)]
        exact DeleteEntityIndex_eq l n2
      refine ⟨⟨e, hget, heid⟩, hfirst, hdel, ?_⟩
      rw [hdel]
      simp only [List.length_append, List.length_take, List.length_drop]
      rw [Nat.min_eq_left hlen.le]
      omega

/-- Applying `c7_delete_spec` at a concrete store: deleting an absent id
is a no-op; deleting id 0 removes exactly the first record. -/
theorem c7_delete_witness :
    DeleteEntity [demoPlayer, demoObstacle] 5 = [demoPlayer, demoObstacle] ∧
    DeleteEntity [demoPlayer, demoObstacle] 0 =
      [demoPlayer, demoObstacle].take 0 ++ [demoPlayer, demoObstacle].drop 1 :=
  ⟨(c7_delete_spec [demoPlayer, demoObstacle] 5).1 (by decide),
   ((c7_delete_spec [demoPlayer, demoObstacle] 0).2 0 (by decide)).2.2.1⟩

theorem GetPlayerEntityData_cons (e : Entity K) (rest : List (Entity K)) :
    GetPlayerEntityData (e :: rest) =
      match e.data with
      | .player d => some d
      | _ => GetPlayerEntityData rest := by
  obtain ⟨eid, edata⟩ := e
  cases edata <;>
    simp [GetPlayerEntityData, GetPlayerEntity, playerUnionRead, Entity.type,
      EntityData.toType]

theorem GetPlayerEntityData_eq_none_iff (l : List (Entity K)) :
    GetPlayerEntityData l = none ↔ ∀ e ∈ l, e.type ≠ EType.player := by
  induction l with
  | nil => simp [GetPlayerEntityData, GetPlayerEntity]
  | cons e rest ih =>
    obtain ⟨eid, edata⟩ := e
    cases edata <;>
      simp [GetPlayerEntityData_cons, ih, Entity.type, EntityData.toType]

theorem GetPlayerEntityData_isSome_iff (l : List (Entity K)) :
    (GetPlayerEntityData l).isSome ↔ ∃ e ∈ l, e.type = EType.player := by
  rw [Option.isSome_iff_ne_none, Ne, GetPlayerEntityData_eq_none_iff]
  push_neg
  rfl

theorem setFirstPlayerPos_length (l : List (Entity K)) (p : Vector2 K) :
    (setFirstPlayerPos l p).length = l.length := by
  induction l with
  | nil => rfl
  | cons e rest ih =>
    obtain ⟨eid, edata⟩ := e
    cases edata <;> simp [setFirstPlayerPos, ih]

theorem setFirstPlayerPos_map_id (l : List (Entity K)) (p : Vector2 K) :
    (setFirstPlayerPos l p).map Entity.id = l.map Entity.id := by
  induction l with
  | nil => rfl
  | cons e rest ih =>
    obtain ⟨eid, edata⟩ := e
    cases edata <;> simp [setFirstPlayerPos, ih]

theorem GetPlayerEntityData_setFirstPlayerPos (l : List (Entity K)) (p : Vector2 K) :
    GetPlayerEntityData (setFirstPlayerPos l p) =
      (GetPlayerEntityData l).map (fun d => { d with k := { d.k with pos := p } }) := by
  induction l with
  | nil => rfl
  | cons e rest ih =>
    obtain ⟨eid, edata⟩ := e
    cases edata <;> simp [setFirstPlayerPos, GetPlayerEntityData_cons, ih]

theorem GetPlayerEntityData_setFirstPlayerHealth (l : List (Entity K)) (h : K) :
    GetPlayerEntityData (setFirstPlayerHealth l h) =
      (GetPlayerEntityData l).map (fun d => { d with health := h }) := by
  induction l with
  | nil => rfl
  | cons e rest ih =>
    obtain ⟨eid, edata⟩ := e
    cases edata <;> simp [setFirstPlayerHealth, GetPlayerEntityData_cons, ih]

theorem setFirstPlayerPos_self (l : List (Entity K)) (d : PlayerData K)
    (hd : GetPlayerEntityData l = some d) : setFirstPlayerPos l d.k.pos = l := by
  induction l with
  | nil => cases hd
  | cons e rest ih =>
    obtain ⟨eid, edata⟩ := e
    cases edata with
    | player d0 =>
      rw [GetPlayerEntityData_cons] at hd
      simp only [Option.some.injEq] at hd
      subst hd
      rfl
    | obstacle r =>
      rw [GetPlayerEntityData_cons] at hd
      simp only [setFirstPlayerPos]
      rw [ih hd]
    | ground r =>
      rw [GetPlayerEntityData_cons] at hd
      simp only [setFirstPlayerPos]
      rw [ih hd]
    | extinguisher d0 =>
      rw [GetPlayerEntityData_cons] at hd
      simp only [setFirstPlayerPos]
      rw [ih hd]
    | fire d0 =>
      rw [GetPlayerEntityData_cons] at hd
      simp only [setFirstPlayerPos]
      rw [ih hd]

theorem LoadEntities_def (file : List (Entity K)) (s : GState K) (flag : Bool) :
    LoadEntities file s flag =
      match GetPlayerEntityData file with
      | none => none
      | some d =>
        some { entities := setFirstPlayerPos file (if flag then d.k.pos else s.spawnPoint),
               curNextEntityID := (file.foldl (fun acc e => max acc e.id) s.curNextEntityID) + 1,
               spawnPoint := if flag then d.k.pos else s.spawnPoint,
               cameraTarget := if flag then d.k.pos else s.spawnPoint } := rfl

theorem LoadEntities_player (file : List (Entity K)) (s : GState K) (flag : Bool)
    (s2 : GState K) (h : LoadEntities file s flag = some s2) :
    ∃ d, GetPlayerEntityData file = some d ∧
      s2.spawnPoint = (if flag then d.k.pos else s.spawnPoint) ∧
      s2.entities = setFirstPlayerPos file s2.spawnPoint ∧
      s2.curNextEntityID = (file.foldl (fun acc e => max acc e.id) s.curNextEntityID) + 1 := by
  cases hfile : GetPlayerEntityData file with
  | none =>
    rw [LoadEntities_def, hfile] at h
    cases h
  | some d =>
    rw [LoadEntities_def, hfile] at h
    injection h with h2
    subst h2
    exact ⟨d, rfl, rfl, rfl, rfl⟩

/-- Claim C1 (amended): saving and reloading restores the entity count
and every record except that the first player's position is overwritten
with the spawn point; with `setSpawnPoint = true` the spawn point is
first set from the saved player position, so the store is restored
exactly. -/
theorem c1_roundtrip_amended (s : GState ℚ) (flag : Bool) (d : PlayerData ℚ)
    (hd : GetPlayerEntityData s.entities = some d) :
    ∃ s2, LoadEntities (SaveEntities s) s flag = some s2 ∧
      s2.entities.length = s.entities.length ∧
      s2.entities = setFirstPlayerPos s.entities (if flag then d.k.pos else s.spawnPoint) ∧
      (flag = true → s2.entities = s.entities) := by
  have hsave : SaveEntities s = s.entities := rfl
  rw [hsave, LoadEntities_def, hd]
  refine ⟨_, rfl, setFirstPlayerPos_length _ _, rfl, ?_⟩
  intro hflag
  subst hflag
  simp only [if_true]
  exact setFirstPlayerPos_self s.entities d hd

/-- Claim C1, failing part: with `setSpawnPoint = false` and a spawn
point away from the saved player position, the reloaded store differs
from the saved one (the player position is replaced by the spawn point),
so the round trip does not restore every record. -/
theorem c1_counterexample :
    (LoadEntities (SaveEntities demoState) demoState false).isSome = true ∧
    (LoadEntities (SaveEntities demoState) demoState false).map GState.entities ≠
      some demoState.entities := by
  constructor <;> decide

/-- Applying `c1_roundtrip_amended` to the demo state with
`setSpawnPoint = true`: the store is restored exactly. -/
theorem c1_roundtrip_witness :
    ∃ s2, LoadEntities (SaveEntities demoState) demoState true = some s2 ∧
      s2.entities.length = demoState.entities.length ∧
      s2.entities = setFirstPlayerPos demoState.entities
        (if true then demoPlayerData.k.pos else demoState.spawnPoint) ∧
      (true = true → s2.entities = demoState.entities) :=
  c1_roundtrip_amended demoState true demoPlayerData (by decide)

/-- Claim C9: `LoadEntities` succeeds exactly when the loaded records
contain a Player entity; with no Player record it dereferences NULL
(`none`), and the per-frame death check dereferences NULL the same way on
a store without a Player. -/
theorem c9_unchecked_player_deref (file : List (Entity ℚ)) (s : GState ℚ) (flag : Bool) :
    ((∃ e ∈ file, e.type = EType.player) → (LoadEntities file s flag).isSome) ∧
    ((∀ e ∈ file, e.type ≠ EType.player) → LoadEntities file s flag = none) ∧
    ((∀ e ∈ s.entities, e.type ≠ EType.player) →
      ∀ f2, deathReloadCheck s f2 = none) := by
  refine ⟨?_, ?_, ?_⟩
  · intro hex
    have h1 : (GetPlayerEntityData file).isSome :=
      (GetPlayerEntityData_isSome_iff file).mpr hex
    rw [Option.isSome_iff_exists] at h1
    obtain ⟨d, hd⟩ := h1
    rw [LoadEntities_def, hd]
    rfl
  · intro hall
    have h1 : GetPlayerEntityData file = none :=
      (GetPlayerEntityData_eq_none_iff file).mpr hall
    rw [LoadEntities_def, h1]
  · intro hall f2
    have h1 : GetPlayerEntityData s.entities = none :=
      (GetPlayerEntityData_eq_none_iff _).mpr hall
    unfold deathReloadCheck
    rw [h1, Option.none_bind]

/-- Applying `c9_unchecked_player_deref` concretely: a file with a player
loads, a file with only an obstacle crashes, and so does the death check
on a playerless store. -/
theorem c9_witness :
    (LoadEntities [demoPlayer] demoState true).isSome ∧
    LoadEntities [demoObstacle] demoState true = none ∧
    deathReloadCheck { demoState with entities := [demoObstacle] } [demoPlayer] = none :=
  ⟨(c9_unchecked_player_deref [demoPlayer] demoState true).1 (by decide),
   (c9_unchecked_player_deref [demoObstacle] demoState true).2.1 (by decide),
   (c9_unchecked_player_deref [demoObstacle] { demoState with entities := [demoObstacle] }
      true).2.2 (by decide) [demoPlayer]⟩

/-- Claim C10: a load never restores the saved player position: the
player comes back at the spawn point (freshly recorded from the file
exactly when `setSpawnPoint` is true, in which case the overwrite is a
no-op), and the camera target is set to that position. -/
theorem c10_load_ignores_saved_pos (file : List (Entity ℚ)) (s : GState ℚ) (flag : Bool)
    (d : PlayerData ℚ) (hd : GetPlayerEntityData file = some d) :
    ∃ s2, LoadEntities file s flag = some s2 ∧
      s2.spawnPoint = (if flag then d.k.pos else s.spawnPoint) ∧
      GetPlayerEntityData s2.entities =
        some { d with k := { d.k with pos := s2.spawnPoint } } ∧
      s2.cameraTarget = s2.spawnPoint ∧
      (flag = true → GetPlayerEntityData s2.entities = some d) := by
  rw [LoadEntities_def, hd]
  refine ⟨_, rfl, rfl, ?_, rfl, ?_⟩
  · rw [GetPlayerEntityData_setFirstPlayerPos, hd]
    rfl
  · intro hflag
    subst hflag
    rw [GetPlayerEntityData_setFirstPlayerPos, hd]
    rfl

/-- Applying `c10_load_ignores_saved_pos` to the demo state with
`setSpawnPoint = false`: the player respawns at the stored spawn point. -/
theorem c10_witness :
    ∃ s2, LoadEntities [demoPlayer] demoState false = some s2 ∧
      s2.spawnPoint = (if false then demoPlayerData.k.pos else demoState.spawnPoint) ∧
      GetPlayerEntityData s2.entities =
        some { demoPlayerData with k := { demoPlayerData.k with pos := s2.spawnPoint } } ∧
      s2.cameraTarget = s2.spawnPoint ∧
      (false = true → GetPlayerEntityData s2.entities = some demoPlayerData) :=
  c10_load_ignores_saved_pos [demoPlayer] demoState false demoPlayerData (by decide)

theorem clamp_bounds (v mn mx : K) (h : mn ≤ mx) :
    mn ≤ clamp v mn mx ∧ clamp v mn mx ≤ mx := by
  unfold clamp
  split_ifs with h1 h2
  · exact ⟨le_refl mn, h⟩
  · exact ⟨h, le_refl mx⟩
  · exact ⟨not_lt.mp h1, not_lt.mp h2⟩

/-- Claim C3: the per-frame player health adjustment (fire damage,
off-ground decay or on-ground regeneration) always lands in [0, 1]
because it ends in a clamp, and the death-reload path resets the player
health to exactly 1. -/
theorem c3_health_bounds :
    (∀ (ents : List (Entity ℚ)) (pos : Vector2 ℚ) (onGround : Bool) (health dt : ℚ),
      0 ≤ playerHealthStep ents pos onGround health dt ∧
      playerHealthStep ents pos onGround health dt ≤ 1) ∧
    (∀ (s : GState ℚ) (file : List (Entity ℚ)) (s2 : GState ℚ) (d : PlayerData ℚ),
      GetPlayerEntityData s.entities = some d → d.health ≤ 0 →
      deathReloadCheck s file = some s2 →
      (GetPlayerEntityData s2.entities).map PlayerData.health = some 1) := by
  constructor
  · intro ents pos og health dt
    exact clamp_bounds _ 0 1 (by norm_num)
  · intro s file s2 d hd hh hdc
    unfold deathReloadCheck at hdc
    rw [hd, Option.some_bind, if_pos hh] at hdc
    cases hload : LoadEntities file s false with
    | none =>
      rw [hload] at hdc
      cases hdc
    | some s3 =>
      rw [hload, Option.map_some'] at hdc
      injection hdc with h2
      subst h2
      obtain ⟨d2, hfile, _, hents, _⟩ := LoadEntities_player file s false s3 hload
      simp only [GetPlayerEntityData_setFirstPlayerHealth, hents,
        GetPlayerEntityData_setFirstPlayerPos, hfile]
      rfl

/-- Applying `c3_health_bounds` concretely: a mid-air frame keeps health
in [0, 1], and the death reload yields health exactly 1. -/
theorem c3_witness :
    (0 ≤ playerHealthStep [demoFireEntity] (⟨0, 0⟩ : Vector2 ℚ) false (1/2) (1/60) ∧
      playerHealthStep [demoFireEntity] (⟨0, 0⟩ : Vector2 ℚ) false (1/2) (1/60) ≤ 1) ∧
    ∃ s2, deathReloadCheck demoDeadState [demoPlayer] = some s2 ∧
      (GetPlayerEntityData s2.entities).map PlayerData.health = some 1 :=
  ⟨c3_health_bounds.1 [demoFireEntity] ⟨0, 0⟩ false (1/2) (1/60),
   ⟨_, rfl, c3_health_bounds.2 demoDeadState [demoPlayer] _
      { demoPlayerData with health := 0 } (by decide) (by norm_num) rfl⟩⟩

theorem le_foldl_max (l : List (Entity K)) :
    ∀ init : Int, init ≤ l.foldl (fun acc e => max acc e.id) init := by
  induction l with
  | nil =>
    intro init
    exact le_refl _
  | cons e rest ih =>
    intro init
    exact le_trans (le_max_left init e.id) (ih (max init e.id))

theorem id_le_foldl_max (l : List (Entity K)) :
    ∀ init : Int, ∀ e ∈ l, e.id ≤ l.foldl (fun acc e => max acc e.id) init := by
  induction l with
  | nil =>
    intro init e he
    cases he
  | cons e2 rest ih =>
    intro init e he
    rcases List.mem_cons.mp he with rfl | he
    · exact le_trans (le_max_right init e.id) (le_foldl_max rest (max init e.id))
    · exact ih (max init e2.id) e he

theorem DeleteEntityIndex_sublist (l : List (Entity K)) :
    ∀ n, (DeleteEntityIndex l n).Sublist l := by
  induction l with
  | nil =>
    intro n
    simp [DeleteEntityIndex]
  | cons e rest ih =>
    intro n
    cases n with
    | zero => exact List.sublist_cons_of_sublist e (List.Sublist.refl rest)
    | succ m => exact List.Sublist.cons₂ e (ih m)

theorem DeleteEntity_sublist (l : List (Entity K)) (id : Int) :
    (DeleteEntity l id).Sublist l := by
  rw [DeleteEntity_def]
  split_ifs
  · exact List.Sublist.refl l
  · exact DeleteEntityIndex_sublist l _

theorem applyOp_inv (s s2 : Session K) (op : Op K) (hinv : sessionInv s)
    (happ : applyOp s op = some s2) : sessionInv s2 := by
  obtain ⟨hnd, hlt, hfile⟩ := hinv
  cases op with
  | add e =>
    injection happ with h2
    subst h2
    refine ⟨?_, ?_, hfile⟩
    · show ((s.state.entities ++ [{ e with id := s.state.curNextEntityID }]).map Entity.id).Nodup
      rw [List.map_append, List.nodup_append]
      refine ⟨hnd, List.nodup_singleton _, ?_⟩
      intro x hx hy
      simp only [List.map_cons, List.map_nil, List.mem_singleton] at hy
      obtain ⟨e2, he2, heq⟩ := List.mem_map.mp hx
      have hb := hlt e2 he2
      omega
    · intro e2 he2
      rcases List.mem_append.mp he2 with h2 | h2
      · exact lt_trans (hlt e2 h2) (lt_add_one _)
      · simp only [List.mem_singleton] at h2
        subst h2
        exact lt_add_one _
  | delete id =>
    injection happ with h2
    subst h2
    refine ⟨?_, ?_, hfile⟩
    · exact List.Nodup.sublist (List.Sublist.map Entity.id (DeleteEntity_sublist _ id)) hnd
    · intro e2 he2
      exact hlt e2 ((DeleteEntity_sublist _ id).subset he2)
  | save =>
    injection happ with h2
    subst h2
    exact ⟨hnd, hlt, hnd⟩
  | load flag =>
    simp only [applyOp] at happ
    cases hload : LoadEntities (s.file.getD []) s.state flag with
    | none =>
      rw [hload, Option.map_none'] at happ
      cases happ
    | some st =>
      rw [hload, Option.map_some'] at happ
      injection happ with h2
      subst h2
      obtain ⟨d, hGPED, hsp, hents, hcnt⟩ :=
        LoadEntities_player (s.file.getD []) s.state flag st hload
      refine ⟨?_, ?_, hfile⟩
      · show ((st.entities).map Entity.id).Nodup
        rw [hents, setFirstPlayerPos_map_id]
        cases hf : s.file with
        | none => simp [hf]
        | some l =>
          rw [hf] at hfile
          simpa [hf] using hfile
      · intro e he
        have hid : e.id ∈ st.entities.map Entity.id := List.mem_map_of_mem _ he
        rw [hents, setFirstPlayerPos_map_id] at hid
        obtain ⟨e2, he2, heq⟩ := List.mem_map.mp hid
        rw [hcnt, ← heq]
        have hb := id_le_foldl_max (s.file.getD []) s.state.curNextEntityID e2 he2
        omega

theorem runOps_inv (ops : List (Op K)) :
    ∀ s s2 : Session K, sessionInv s → runOps s ops = some s2 → sessionInv s2 := by
  induction ops with
  | nil =>
    intro s s2 h hrun
    injection hrun with h2
    subst h2
    exact h
  | cons op rest ih =>
    intro s s2 h hrun
    unfold runOps at hrun
    cases happ : applyOp s op with
    | none =>
      rw [happ] at hrun
      cases hrun
    | some s3 =>
      rw [happ] at hrun
      exact ih s3 s2 (applyOp_inv s s3 op h happ) hrun

/-- Claim C4 (amended): `AddEntity` stamps the current next-id counter
and increments it; `LoadEntities` sets the counter to one more than the
maximum of its current value and the loaded ids; hence every sequence of
add, delete, save and load operations from a state with distinct ids
below the counter keeps the store ids pairwise distinct. -/
theorem c4_ids_distinct :
    (∀ (ops : List (Op ℚ)) (s0 s1 : Session ℚ), sessionInv s0 → runOps s0 ops = some s1 →
      idsDistinct s1.state.entities) ∧
    (∀ (s : GState ℚ) (e : Entity ℚ),
      (AddEntity s e).curNextEntityID = s.curNextEntityID + 1 ∧
      (AddEntity s e).entities.map Entity.id =
        s.entities.map Entity.id ++ [s.curNextEntityID]) ∧
    (∀ (file : List (Entity ℚ)) (s : GState ℚ) (flag : Bool) (s2 : GState ℚ),
      LoadEntities file s flag = some s2 →
      s2.curNextEntityID = (file.foldl (fun acc e => max acc e.id) s.curNextEntityID) + 1) := by
  refine ⟨?_, ?_, ?_⟩
  · intro ops s0 s1 h hrun
    exact (runOps_inv ops s0 s1 h hrun).1
  · intro s e
    exact ⟨rfl, by simp [AddEntity]⟩
  · intro file s flag s2 h
    obtain ⟨d, _, _, _, hcnt⟩ := LoadEntities_player file s flag s2 h
    exact hcnt

/-- Claim C4, failing part: after a save, three adds and a reload, the
counter is 6 = max(previous counter 5, loaded ids 0 and 1) + 1, not 2 =
(maximum loaded id) + 1 as the claim describes. -/
theorem c4_counterexample :
    (runOps demoSession c4Ops).map (fun t => t.state.curNextEntityID) = some 6 ∧
    (6 : Int) ≠ 1 + 1 := by
  constructor
  · decide
  · decide

/-- Applying `c4_ids_distinct` to the demo session over `c4Ops`: the ids
stay pairwise distinct. -/
theorem c4_witness :
    ∃ s1, runOps demoSession c4Ops = some s1 ∧ idsDistinct s1.state.entities :=
  ⟨_, rfl, c4_ids_distinct.1 c4Ops demoSession _
    ⟨by unfold idsDistinct; decide, by decide, trivial⟩ rfl⟩

theorem particleHitEntities_lifetime (l : List (Entity K)) :
    ∀ p : Particle K, 0 < p.lifetime →
      0 < (particleHitEntities l p).1.lifetime ∧
      (particleHitEntities l p).1.lifetime ≤ p.lifetime := by
  induction l with
  | nil =>
    intro p h
    exact ⟨h, le_refl _⟩
  | cons e rest ih =>
    intro p h
    obtain ⟨eid, edata⟩ := e
    cases edata with
    | player d =>
      simpa [particleHitEntities] using ih p h
    | obstacle r =>
      by_cases hhit : RectHasPoint r p.pos
      · simp only [particleHitEntities, hhit, if_true]
        exact ⟨h, le_refl _⟩
      · simpa [particleHitEntities, hhit] using ih p h
    | ground r =>
      simpa [particleHitEntities] using ih p h
    | extinguisher d =>
      simpa [particleHitEntities] using ih p h
    | fire fd =>
      by_cases hhit : p.type = ParticleType.retardantParticle ∧ RectHasPoint fd.rect p.pos
      · have hcond : (p.type = ParticleType.retardantParticle && RectHasPoint fd.rect p.pos) = true := by
          simp [hhit.1, hhit.2]
        simp only [particleHitEntities, hcond, if_true]
        have hhalf : 0 < p.lifetime / 2 := half_pos h
        have := ih { p with vel := (⟨0, 0⟩ : Vector2 K), lifetime := p.lifetime / 2 } hhalf
        refine ⟨this.1, le_trans this.2 ?_⟩
        exact half_le_self h.le
      · have hcond : (p.type = ParticleType.retardantParticle && RectHasPoint fd.rect p.pos) = false := by
          rcases Decidable.not_and_iff_or_not.mp hhit with h1 | h1 <;> simp [h1]
        simpa [particleHitEntities, hcond] using ih p h

/-- Claim C5: a live particle's lifetime never increases across the
particle-processing pass (it is halved zero or more times by fire
contact, then reduced by the frame time), strictly decreasing for a
positive frame time; a slot whose lifetime is at or below zero is skipped
untouched. -/
theorem c5_particle_lifetime :
    (∀ (ents : List (Entity ℚ)) (p : Particle ℚ) (dt : ℚ), 0 < p.lifetime → 0 ≤ dt →
      (processParticle ents p dt).1.lifetime ≤ p.lifetime ∧
      (0 < dt → (processParticle ents p dt).1.lifetime < p.lifetime)) ∧
    (∀ (ents : List (Entity ℚ)) (p : Particle ℚ) (dt : ℚ), p.lifetime ≤ 0 →
      processParticle ents p dt = (p, ents)) := by
  constructor
  · intro ents p dt hpos hdt
    have hinner := particleHitEntities_lifetime ents p hpos
    unfold processParticle
    rw [if_neg (not_le.mpr hpos)]
    constructor
    · show (particleHitEntities ents p).1.lifetime - dt ≤ p.lifetime
      linarith [hinner.2]
    · intro hdt2
      show (particleHitEntities ents p).1.lifetime - dt < p.lifetime
      linarith [hinner.2]
  · intro ents p dt h
    unfold processParticle
    rw [if_pos h]

/-- Applying `c5_particle_lifetime` to a retardant particle inside a fire
with a 1/60 s frame: the lifetime strictly decreases. -/
theorem c5_witness :
    (processParticle [demoFireEntity] demoParticle (1/60)).1.lifetime ≤
      demoParticle.lifetime ∧
    (processParticle [demoFireEntity] demoParticle (1/60)).1.lifetime <
      demoParticle.lifetime :=
  ⟨(c5_particle_lifetime.1 [demoFireEntity] demoParticle (1/60) (by norm_num [demoParticle])
      (by norm_num)).1,
   (c5_particle_lifetime.1 [demoFireEntity] demoParticle (1/60) (by norm_num [demoParticle])
      (by norm_num)).2 (by norm_num)⟩

theorem loadWrites_isSome (file : List (Entity K)) :
    ∀ (a : Array (Entity K)) (i : Nat),
      (loadWrites a i file).isSome ↔ file.length ≤ a.size - i := by
  induction file with
  | nil =>
    intro a i
    simp [loadWrites]
  | cons e rest ih =>
    intro a i
    unfold loadWrites
    by_cases h : i < a.size
    · rw [show arraySet a i e = some (a.set ⟨i, h⟩ e) from dif_pos h, Option.some_bind]
      rw [ih (a.set ⟨i, h⟩ e) (i + 1), Array.size_set]
      simp only [List.length_cons]
      omega
    · rw [show arraySet a i e = none from dif_neg h, Option.none_bind]
      simp only [Option.isSome_none, Bool.false_eq_true, false_iff, List.length_cons]
      omega

/-- Claim C8: neither `AddEntity` nor the `LoadEntities` copy loop tests
the capacity: the writes all land inside the 100-slot array exactly when
the resulting entity count is at most 100, and on a full array the
`AddEntity` write is out of bounds. -/
theorem c8_no_capacity_check :
    (∀ (a : Array (Entity ℚ)) (len : Nat) (cnt : Int) (e : Entity ℚ),
      a.size = entityCapacity →
      ((AddEntityWrite a len cnt e).isSome ↔ len < entityCapacity)) ∧
    (∀ (a : Array (Entity ℚ)) (file : List (Entity ℚ)), a.size = entityCapacity →
      ((loadWrites a 0 file).isSome ↔ file.length ≤ entityCapacity)) ∧
    AddEntityWrite fullArray entityCapacity 0 demoObstacle = none := by
  refine ⟨?_, ?_, ?_⟩
  · intro a len cnt e hsize
    unfold AddEntityWrite arraySet
    by_cases h : len < a.size
    · rw [dif_pos h]
      simp only [Option.isSome_some, true_iff]
      omega
    · rw [dif_neg h]
      simp only [Option.isSome_none, Bool.false_eq_true, false_iff]
      omega
  · intro a file hsize
    rw [loadWrites_isSome file a 0, hsize]
    omega
  · unfold AddEntityWrite arraySet
    rw [dif_neg]
    simp [fullArray, entityCapacity]

/-- Applying `c8_no_capacity_check`: on the 100-slot array a write at
index 0 is in bounds, and a single-record load fits. -/
theorem c8_witness :
    ((AddEntityWrite fullArray 0 0 demoObstacle).isSome ↔ 0 < entityCapacity) ∧
    ((loadWrites fullArray 0 [demoObstacle]).isSome ↔
      ([demoObstacle] : List (Entity ℚ)).length ≤ entityCapacity) :=
  ⟨c8_no_capacity_check.1 fullArray 0 0 demoObstacle (by simp [fullArray, entityCapacity]),
   c8_no_capacity_check.2.1 fullArray [demoObstacle] (by simp [fullArray, entityCapacity])⟩

theorem clamp_eq_of_lt (v mn mx : K) (h : v < mn) : clamp v mn mx = mn := by
  unfold clamp
  rw [if_pos h]

theorem clamp_eq_of_gt (v mn mx : K) (h1 : ¬ v < mn) (h2 : mx < v) : clamp v mn mx = mx := by
  unfold clamp
  rw [if_neg h1, if_pos h2]

theorem clamp_eq_of_mem (v mn mx : K) (h1 : ¬ v < mn) (h2 : ¬ mx < v) : clamp v mn mx = v := by
  unfold clamp
  rw [if_neg h1, if_neg h2]

theorem FixNegativeRect_nonneg (r : Rectangle K) :
    0 ≤ (FixNegativeRect r).width ∧ 0 ≤ (FixNegativeRect r).height := by
  unfold FixNegativeRect
  rcases lt_or_le r.width 0 with h1 | h1
  · rw [if_pos h1]
    rcases lt_or_le r.height 0 with h2 | h2
    · rw [if_pos (show ({ r with x := r.x + r.width, width := r.width * (-1) } :
          Rectangle K).height < 0 from h2)]
      constructor <;> simp <;> linarith
    · rw [if_neg (show ¬ ({ r with x := r.x + r.width, width := r.width * (-1) } :
          Rectangle K).height < 0 from not_lt.mpr h2)]
      constructor <;> simp <;> linarith
  · rw [if_neg (not_lt.mpr h1)]
    rcases lt_or_le r.height 0 with h2 | h2
    · rw [if_pos h2]
      constructor <;> simp <;> linarith
    · rw [if_neg (not_lt.mpr h2)]
      exact ⟨h1, h2⟩

theorem closestPointOnRect_x (r : Rectangle K) (p : Vector2 K) :
    (closestPointOnRect r p).x = clamp p.x r.x (r.x + r.width) := by
  show clamp (p.x - (r.x + r.width / 2)) (-(r.width / 2)) (r.width / 2) + (r.x + r.width / 2) =
    clamp p.x r.x (r.x + r.width)
  unfold clamp
  split_ifs <;> first | ring1 | linarith

theorem closestPointOnRect_y (r : Rectangle K) (p : Vector2 K) :
    (closestPointOnRect r p).y = clamp p.y r.y (r.y + r.height) := by
  show clamp (p.y - (r.y + r.height / 2)) (-(r.height / 2)) (r.height / 2) + (r.y + r.height / 2) =
    clamp p.y r.y (r.y + r.height)
  unfold clamp
  split_ifs <;> first | ring1 | linarith

theorem clamp_resolved (v lo hi d t : K) (hlohi : lo ≤ hi) (hd : 0 < d) (ht : 0 < t) :
    clamp (clamp v lo hi + (v - clamp v lo hi) / d * t) lo hi = clamp v lo hi := by
  rcases lt_or_le v lo with h1 | h1
  · rw [clamp_eq_of_lt v lo hi h1]
    have hneg : (v - lo) / d < 0 := div_neg_of_neg_of_pos (by linarith) hd
    have harg : lo + (v - lo) / d * t < lo := by nlinarith
    rw [clamp_eq_of_lt _ lo hi harg]
  · rcases le_or_lt v hi with h2 | h2
    · rw [clamp_eq_of_mem v lo hi (not_lt.mpr h1) (not_lt.mpr h2)]
      have hv : v + (v - v) / d * t = v := by
        rw [sub_self, zero_div, zero_mul, add_zero]
      rw [hv, clamp_eq_of_mem v lo hi (not_lt.mpr h1) (not_lt.mpr h2)]
    · rw [clamp_eq_of_gt v lo hi (not_lt.mpr h1) h2]
      have hpos : 0 < (v - hi) / d := div_pos (by linarith) hd
      have harg : hi < hi + (v - hi) / d * t := by nlinarith
      rw [clamp_eq_of_gt _ lo hi (not_lt.mpr (by linarith)) harg]

theorem Vector2_ext (a b : Vector2 K) (hx : a.x = b.x) (hy : a.y = b.y) : a = b := by
  obtain ⟨ax, ay⟩ := a
  obtain ⟨bx, by2⟩ := b
  simp only at hx hy
  rw [hx, hy]

theorem dist_pos_of_ne (a b : Vector2 ℝ) (h : a ≠ b) :
    0 < Vector2Distance Real.sqrt a b := by
  unfold Vector2Distance
  apply Real.sqrt_pos.mpr
  have hne : a.x ≠ b.x ∨ a.y ≠ b.y := by
    by_contra hc
    push_neg at hc
    obtain ⟨c1, c2⟩ := hc
    apply h
    obtain ⟨ax, ay⟩ := a
    obtain ⟨bx, By⟩ := b
    simp only at c1 c2
    rw [c1, c2]
  rcases hne with h1 | h1
  · have hp : 0 < (a.x - b.x) * (a.x - b.x) := mul_self_pos.mpr (sub_ne_zero.mpr h1)
    nlinarith [mul_self_nonneg (a.y - b.y)]
  · have hp : 0 < (a.y - b.y) * (a.y - b.y) := mul_self_pos.mpr (sub_ne_zero.mpr h1)
    nlinarith [mul_self_nonneg (a.x - b.x)]

theorem glideStep_obstacle_eq (sqrt : K → K) (bf : K) (k : KinematicInfo K) (eid : Int)
    (r : Rectangle K) :
    glideStep sqrt bf k ⟨eid, EntityData.obstacle r⟩ =
      if Vector2Distance sqrt (closestPointOnRect (FixNegativeRect r) k.pos) k.pos <
          player_radius K then
        { k with
          pos := Vector2Add (closestPointOnRect (FixNegativeRect r) k.pos)
            (Vector2Scale
              (Vector2Normalize sqrt
                (Vector2Subtract k.pos (closestPointOnRect (FixNegativeRect r) k.pos)))
              (player_radius K)),
          vel := Vector2Scale
            (Vector2Reflect k.vel
              (Vector2Normalize sqrt
                (Vector2Subtract k.pos (closestPointOnRect (FixNegativeRect r) k.pos))))
            bf }
      else k := rfl

theorem sqrt_eval (a b : ℝ) (hb : 0 ≤ b) (h : b * b = a) : Real.sqrt a = b := by
  rw [← h, Real.sqrt_mul_self hb]

theorem glideStep_obstacle_dist (k : KinematicInfo ℝ) (bf : ℝ) (eid : Int) (r : Rectangle ℝ)
    (hne : closestPointOnRect (FixNegativeRect r) k.pos ≠ k.pos) :
    player_radius ℝ ≤
      distToRect Real.sqrt (FixNegativeRect r)
        ((glideStep Real.sqrt bf k ⟨eid, EntityData.obstacle r⟩).pos) := by
  obtain ⟨hw, hh⟩ := FixNegativeRect_nonneg r
  rw [glideStep_obstacle_eq]
  by_cases hlt : Vector2Distance Real.sqrt (closestPointOnRect (FixNegativeRect r) k.pos) k.pos <
      player_radius ℝ
  · rw [if_pos hlt]
    set R := FixNegativeRect r with hR
    set c := closestPointOnRect R k.pos with hcdef
    set p := k.pos with hp
    set d := Vector2Distance Real.sqrt c p with hd
    have hdpos : 0 < d := dist_pos_of_ne c p hne
    have hlen : Vector2Length Real.sqrt (Vector2Subtract p c) = d := by
      show Real.sqrt ((p.x - c.x) * (p.x - c.x) + (p.y - c.y) * (p.y - c.y)) =
        Real.sqrt ((c.x - p.x) * (c.x - p.x) + (c.y - p.y) * (c.y - p.y))
      ring_nf
    have hnorm : Vector2Normalize Real.sqrt (Vector2Subtract p c) =
        ⟨(p.x - c.x) / d, (p.y - c.y) / d⟩ := by
      show (if 0 < Vector2Length Real.sqrt (Vector2Subtract p c) then
          (⟨(Vector2Subtract p c).x / Vector2Length Real.sqrt (Vector2Subtract p c),
            (Vector2Subtract p c).y / Vector2Length Real.sqrt (Vector2Subtract p c)⟩ : Vector2 ℝ)
        else ⟨0, 0⟩) = _
      rw [hlen, if_pos hdpos]
      rfl
    rw [hnorm]
    have hpos2x : (Vector2Add c (Vector2Scale (⟨(p.x - c.x) / d, (p.y - c.y) / d⟩ : Vector2 ℝ)
        (player_radius ℝ))).x = c.x + (p.x - c.x) / d * 18 := rfl
    have hpos2y : (Vector2Add c (Vector2Scale (⟨(p.x - c.x) / d, (p.y - c.y) / d⟩ : Vector2 ℝ)
        (player_radius ℝ))).y = c.y + (p.y - c.y) / d * 18 := rfl
    set pos2 := Vector2Add c (Vector2Scale (⟨(p.x - c.x) / d, (p.y - c.y) / d⟩ : Vector2 ℝ)
        (player_radius ℝ)) with hpos2
    have hcx : c.x = clamp p.x R.x (R.x + R.width) := closestPointOnRect_x R p
    have hcy : c.y = clamp p.y R.y (R.y + R.height) := closestPointOnRect_y R p
    have hclx : (closestPointOnRect R pos2).x = c.x := by
      rw [closestPointOnRect_x, hpos2x, hcx]
      exact clamp_resolved p.x R.x (R.x + R.width) d 18 (by linarith) hdpos (by norm_num)
    have hcly : (closestPointOnRect R pos2).y = c.y := by
      rw [closestPointOnRect_y, hpos2y, hcy]
      exact clamp_resolved p.y R.y (R.y + R.height) d 18 (by linarith) hdpos (by norm_num)
    have hclosest : closestPointOnRect R pos2 = c := Vector2_ext _ _ hclx hcly
    show player_radius ℝ ≤ Vector2Distance Real.sqrt (closestPointOnRect R pos2) pos2
    rw [hclosest]
    have hdne : d ≠ 0 := ne_of_gt hdpos
    have hd2 : d * d = (c.x - p.x) * (c.x - p.x) + (c.y - p.y) * (c.y - p.y) := by
      rw [hd]
      exact Real.mul_self_sqrt (add_nonneg (mul_self_nonneg _) (mul_self_nonneg _))
    have hx2 : c.x - pos2.x = -((p.x - c.x) / d * 18) := by
      rw [hpos2x]
      ring
    have hy2 : c.y - pos2.y = -((p.y - c.y) / d * 18) := by
      rw [hpos2y]
      ring
    have hsum : (c.x - pos2.x) * (c.x - pos2.x) + (c.y - pos2.y) * (c.y - pos2.y) = 324 := by
      rw [hx2, hy2]
      have hstep1 : -((p.x - c.x) / d * 18) * -((p.x - c.x) / d * 18) +
          -((p.y - c.y) / d * 18) * -((p.y - c.y) / d * 18) =
          324 * (((c.x - p.x) * (c.x - p.x) + (c.y - p.y) * (c.y - p.y)) / (d * d)) := by
        field_simp
        ring
      rw [hstep1, ← hd2, div_self (mul_ne_zero hdne hdne), mul_one]
    show player_radius ℝ ≤ Real.sqrt
      ((c.x - pos2.x) * (c.x - pos2.x) + (c.y - pos2.y) * (c.y - pos2.y))
    rw [hsum, sqrt_eval 324 18 (by norm_num) (by norm_num)]
    show (18 : ℝ) ≤ 18
    exact le_refl 18
  · rw [if_neg hlt]
    exact not_lt.mp hlt

theorem glideStep_pos_of_not_obstacle (sqrt : K → K) (bf : K) (k : KinematicInfo K)
    (e : Entity K) (h : ∀ r, e.data ≠ EntityData.obstacle r) :
    (glideStep sqrt bf k e).pos = k.pos := by
  obtain ⟨eid, edata⟩ := e
  cases edata with
  | player d => rfl
  | obstacle r => exact absurd rfl (h r)
  | ground r =>
    show (if RectHasPoint r k.pos then { k with onGround := true } else k).pos = k.pos
    split_ifs <;> rfl
  | extinguisher d => rfl
  | fire d => rfl

theorem foldl_glide_pos (sqrt : K → K) (bf : K) :
    ∀ (l : List (Entity K)) (k : KinematicInfo K), obstacleRects l = [] →
      (l.foldl (fun k2 e => glideStep sqrt bf k2 e) k).pos = k.pos := by
  intro l
  induction l with
  | nil =>
    intro k _
    rfl
  | cons e rest ih =>
    intro k h
    obtain ⟨eid, edata⟩ := e
    cases edata with
    | obstacle r =>
      simp [obstacleRects, List.filterMap_cons] at h
    | player d =>
      simp only [obstacleRects, List.filterMap_cons] at h
      rw [List.foldl_cons, ih _ h]
      exact glideStep_pos_of_not_obstacle sqrt bf k _ (fun r hr => by cases hr)
    | ground r =>
      simp only [obstacleRects, List.filterMap_cons] at h
      rw [List.foldl_cons, ih _ h]
      exact glideStep_pos_of_not_obstacle sqrt bf k _ (fun r2 hr => by cases hr)
    | extinguisher d =>
      simp only [obstacleRects, List.filterMap_cons] at h
      rw [List.foldl_cons, ih _ h]
      exact glideStep_pos_of_not_obstacle sqrt bf k _ (fun r hr => by cases hr)
    | fire d =>
      simp only [obstacleRects, List.filterMap_cons] at h
      rw [List.foldl_cons, ih _ h]
      exact glideStep_pos_of_not_obstacle sqrt bf k _ (fun r hr => by cases hr)

theorem obstacleRects_singleton (l : List (Entity K)) (r : Rectangle K)
    (h : obstacleRects l = [r]) :
    ∃ l1 eid l2, l = l1 ++ (⟨eid, EntityData.obstacle r⟩ : Entity K) :: l2 ∧
      obstacleRects l1 = [] ∧ obstacleRects l2 = [] := by
  induction l with
  | nil =>
    simp [obstacleRects] at h
  | cons e rest ih =>
    obtain ⟨eid, edata⟩ := e
    cases edata with
    | obstacle r0 =>
      simp only [obstacleRects, List.filterMap_cons, List.cons.injEq] at h
      obtain ⟨hr0, hrest⟩ := h
      subst hr0
      exact ⟨[], eid, rest, rfl, rfl, hrest⟩
    | player d =>
      simp only [obstacleRects, List.filterMap_cons] at h
      obtain ⟨l1, eid2, l2, hsplit, hh1, hh2⟩ := ih h
      refine ⟨⟨eid, EntityData.player d⟩ :: l1, eid2, l2, by rw [hsplit]; rfl, ?_, hh2⟩
      simpa [obstacleRects, List.filterMap_cons] using hh1
    | ground r0 =>
      simp only [obstacleRects, List.filterMap_cons] at h
      obtain ⟨l1, eid2, l2, hsplit, hh1, hh2⟩ := ih h
      refine ⟨⟨eid, EntityData.ground r0⟩ :: l1, eid2, l2, by rw [hsplit]; rfl, ?_, hh2⟩
      simpa [obstacleRects, List.filterMap_cons] using hh1
    | extinguisher d =>
      simp only [obstacleRects, List.filterMap_cons] at h
      obtain ⟨l1, eid2, l2, hsplit, hh1, hh2⟩ := ih h
      refine ⟨⟨eid, EntityData.extinguisher d⟩ :: l1, eid2, l2, by rw [hsplit]; rfl, ?_, hh2⟩
      simpa [obstacleRects, List.filterMap_cons] using hh1
    | fire d =>
      simp only [obstacleRects, List.filterMap_cons] at h
      obtain ⟨l1, eid2, l2, hsplit, hh1, hh2⟩ := ih h
      refine ⟨⟨eid, EntityData.fire d⟩ :: l1, eid2, l2, by rw [hsplit]; rfl, ?_, hh2⟩
      simpa [obstacleRects, List.filterMap_cons] using hh1

/-- Claim C2 (amended): when the store contains exactly one Obstacle
entity and the incoming position lies strictly outside its
sign-normalized closed rectangle (it is not its own closest point), the
position resolved by `GlideAndBounce` ends at least `player_radius` (18)
from the closest point of that rectangle.  A position inside the
rectangle is a fixed point of the resolution (the zero offset normalizes
to the zero vector), and with several obstacles a later resolution can
push the position back inside the radius of an earlier one; the
counterexample exhibits both. -/
theorem c2_resolved_outside (ents : List (Entity ℝ)) (k : KinematicInfo ℝ) (bf : ℝ)
    (r : Rectangle ℝ) (h1 : obstacleRects ents = [r])
    (h2 : closestPointOnRect (FixNegativeRect r) k.pos ≠ k.pos) :
    player_radius ℝ ≤
      distToRect Real.sqrt (FixNegativeRect r) ((GlideAndBounce Real.sqrt ents k bf).pos) := by
  obtain ⟨l1, eid, l2, hsplit, hl1, hl2⟩ := obstacleRects_singleton ents r h1
  subst hsplit
  unfold GlideAndBounce
  rw [List.foldl_append, List.foldl_cons]
  have hk1 : (l1.foldl (fun k2 e => glideStep Real.sqrt bf k2 e)
      { k with onGround := false }).pos = k.pos :=
    foldl_glide_pos Real.sqrt bf l1 { k with onGround := false } hl1
  rw [foldl_glide_pos Real.sqrt bf l2 _ hl2]
  exact glideStep_obstacle_dist
    (l1.foldl (fun k2 e => glideStep Real.sqrt bf k2 e) { k with onGround := false })
    bf eid r (by rw [hk1]; exact h2)


theorem fix_cexRectInside : FixNegativeRect cexRectInside = cexRectInside := by
  unfold FixNegativeRect cexRectInside
  norm_num

theorem fix_cexRectA : FixNegativeRect cexRectA = cexRectA := by
  unfold FixNegativeRect cexRectA
  norm_num

theorem fix_cexRectB : FixNegativeRect cexRectB = cexRectB := by
  unfold FixNegativeRect cexRectB
  norm_num

theorem fix_wRect : FixNegativeRect wRect = wRect := by
  unfold FixNegativeRect wRect
  norm_num

theorem closest_inside : closestPointOnRect cexRectInside cexKinInside.pos =
    cexKinInside.pos := by
  apply Vector2_ext
  · rw [closestPointOnRect_x]
    show clamp (50 : ℝ) 0 (0 + 100) = 50
    rw [clamp_eq_of_mem _ _ _ (by norm_num) (by norm_num)]
  · rw [closestPointOnRect_y]
    show clamp (50 : ℝ) 0 (0 + 100) = 50
    rw [clamp_eq_of_mem _ _ _ (by norm_num) (by norm_num)]

theorem dist_self_zero (v : Vector2 ℝ) : Vector2Distance Real.sqrt v v = 0 := by
  show Real.sqrt ((v.x - v.x) * (v.x - v.x) + (v.y - v.y) * (v.y - v.y)) = 0
  rw [sub_self]
  norm_num [Real.sqrt_zero]

theorem normalize_zero : Vector2Normalize Real.sqrt (⟨0, 0⟩ : Vector2 ℝ) = ⟨0, 0⟩ := by
  show (if 0 < Vector2Length Real.sqrt (⟨0, 0⟩ : Vector2 ℝ) then
      (⟨(0 : ℝ) / Vector2Length Real.sqrt (⟨0, 0⟩ : Vector2 ℝ),
        (0 : ℝ) / Vector2Length Real.sqrt (⟨0, 0⟩ : Vector2 ℝ)⟩ : Vector2 ℝ)
    else ⟨0, 0⟩) = ⟨0, 0⟩
  rw [if_neg]
  show ¬ 0 < Real.sqrt ((0 : ℝ) * 0 + 0 * 0)
  norm_num [Real.sqrt_zero]

theorem glide_inside_fixed : (GlideAndBounce Real.sqrt cexStoreInside cexKinInside 1).pos =
    cexKinInside.pos := by
  have hinit : ({ cexKinInside with onGround := false } : KinematicInfo ℝ) = cexKinInside := rfl
  show (glideStep Real.sqrt 1 { cexKinInside with onGround := false }
    ⟨0, EntityData.obstacle cexRectInside⟩).pos = cexKinInside.pos
  rw [hinit, glideStep_obstacle_eq, fix_cexRectInside, closest_inside, dist_self_zero,
    if_pos (by norm_num [player_radius] : (0 : ℝ) < player_radius ℝ)]
  show Vector2Add cexKinInside.pos
      (Vector2Scale (Vector2Normalize Real.sqrt (Vector2Subtract cexKinInside.pos
        cexKinInside.pos)) (player_radius ℝ)) = cexKinInside.pos
  rw [show Vector2Subtract cexKinInside.pos cexKinInside.pos = (⟨0, 0⟩ : Vector2 ℝ) from by
    apply Vector2_ext <;> show _ - _ = (0 : ℝ) <;> rw [sub_self], normalize_zero]
  apply Vector2_ext
  · show (50 : ℝ) + 0 * player_radius ℝ = 50
    norm_num
  · show (50 : ℝ) + 0 * player_radius ℝ = 50
    norm_num

theorem closest_A_25 : closestPointOnRect cexRectA (⟨25, 5⟩ : Vector2 ℝ) = ⟨10, 5⟩ := by
  apply Vector2_ext
  · rw [closestPointOnRect_x]
    show clamp (25 : ℝ) 0 (0 + 10) = 10
    rw [clamp_eq_of_gt _ _ _ (by norm_num) (by norm_num)]
    norm_num
  · rw [closestPointOnRect_y]
    show clamp (5 : ℝ) 0 (0 + 10) = 5
    rw [clamp_eq_of_mem _ _ _ (by norm_num) (by norm_num)]

theorem dist_A_25 : Vector2Distance Real.sqrt (⟨10, 5⟩ : Vector2 ℝ) ⟨25, 5⟩ = 15 := by
  show Real.sqrt (((10 : ℝ) - 25) * ((10 : ℝ) - 25) + ((5 : ℝ) - 5) * ((5 : ℝ) - 5)) = 15
  rw [show ((10 : ℝ) - 25) * ((10 : ℝ) - 25) + ((5 : ℝ) - 5) * ((5 : ℝ) - 5) = 225 from by
    norm_num]
  exact sqrt_eval 225 15 (by norm_num) (by norm_num)

theorem normalize_15_0 : Vector2Normalize Real.sqrt (⟨15, 0⟩ : Vector2 ℝ) = ⟨1, 0⟩ := by
  have hlen : Vector2Length Real.sqrt (⟨15, 0⟩ : Vector2 ℝ) = 15 := by
    show Real.sqrt ((15 : ℝ) * 15 + 0 * 0) = 15
    rw [show (15 : ℝ) * 15 + 0 * 0 = 225 from by norm_num]
    exact sqrt_eval 225 15 (by norm_num) (by norm_num)
  show (if 0 < Vector2Length Real.sqrt (⟨15, 0⟩ : Vector2 ℝ) then
      (⟨(15 : ℝ) / Vector2Length Real.sqrt (⟨15, 0⟩ : Vector2 ℝ),
        (0 : ℝ) / Vector2Length Real.sqrt (⟨15, 0⟩ : Vector2 ℝ)⟩ : Vector2 ℝ)
    else ⟨0, 0⟩) = ⟨1, 0⟩
  rw [hlen, if_pos (by norm_num : (0 : ℝ) < 15)]
  apply Vector2_ext <;> norm_num

theorem stepA_eval : glideStep Real.sqrt 1 cexKinAB ⟨0, EntityData.obstacle cexRectA⟩ =
    ⟨⟨0, 0⟩, ⟨28, 5⟩, false⟩ := by
  rw [glideStep_obstacle_eq, fix_cexRectA]
  rw [show cexKinAB.pos = (⟨25, 5⟩ : Vector2 ℝ) from rfl, closest_A_25, dist_A_25,
    if_pos (by norm_num [player_radius] : (15 : ℝ) < player_radius ℝ)]
  rw [show Vector2Subtract (⟨25, 5⟩ : Vector2 ℝ) ⟨10, 5⟩ = (⟨15, 0⟩ : Vector2 ℝ) from by
    apply Vector2_ext <;> norm_num [Vector2Subtract], normalize_15_0]
  show KinematicInfo.mk
    (Vector2Scale (Vector2Reflect cexKinAB.vel ⟨1, 0⟩) 1)
    (Vector2Add ⟨10, 5⟩ (Vector2Scale ⟨1, 0⟩ (player_radius ℝ)))
    cexKinAB.onGround = ⟨⟨0, 0⟩, ⟨28, 5⟩, false⟩
  rw [show Vector2Scale (Vector2Reflect cexKinAB.vel ⟨1, 0⟩) 1 = (⟨0, 0⟩ : Vector2 ℝ) from by
      apply Vector2_ext <;> norm_num [cexKinAB, Vector2Scale, Vector2Reflect,
        Vector2DotProduct, Vector2Subtract],
    show Vector2Add (⟨10, 5⟩ : Vector2 ℝ) (Vector2Scale ⟨1, 0⟩ (player_radius ℝ)) =
      (⟨28, 5⟩ : Vector2 ℝ) from by
      apply Vector2_ext <;> norm_num [Vector2Add, Vector2Scale, player_radius]]
  rfl

theorem closest_B_28 : closestPointOnRect cexRectB (⟨28, 5⟩ : Vector2 ℝ) = ⟨30, 5⟩ := by
  apply Vector2_ext
  · rw [closestPointOnRect_x]
    show clamp (28 : ℝ) 30 (30 + 100) = 30
    rw [clamp_eq_of_lt _ _ _ (by norm_num)]
  · rw [closestPointOnRect_y]
    show clamp (5 : ℝ) (-50) (-50 + 100) = 5
    rw [clamp_eq_of_mem _ _ _ (by norm_num) (by norm_num)]

theorem dist_B_28 : Vector2Distance Real.sqrt (⟨30, 5⟩ : Vector2 ℝ) ⟨28, 5⟩ = 2 := by
  show Real.sqrt (((30 : ℝ) - 28) * ((30 : ℝ) - 28) + ((5 : ℝ) - 5) * ((5 : ℝ) - 5)) = 2
  rw [show ((30 : ℝ) - 28) * ((30 : ℝ) - 28) + ((5 : ℝ) - 5) * ((5 : ℝ) - 5) = 4 from by
    norm_num]
  exact sqrt_eval 4 2 (by norm_num) (by norm_num)

theorem normalize_neg2_0 : Vector2Normalize Real.sqrt (⟨-2, 0⟩ : Vector2 ℝ) = ⟨-1, 0⟩ := by
  have hlen : Vector2Length Real.sqrt (⟨-2, 0⟩ : Vector2 ℝ) = 2 := by
    show Real.sqrt ((-2 : ℝ) * (-2) + 0 * 0) = 2
    rw [show (-2 : ℝ) * (-2) + 0 * 0 = 4 from by norm_num]
    exact sqrt_eval 4 2 (by norm_num) (by norm_num)
  show (if 0 < Vector2Length Real.sqrt (⟨-2, 0⟩ : Vector2 ℝ) then
      (⟨(-2 : ℝ) / Vector2Length Real.sqrt (⟨-2, 0⟩ : Vector2 ℝ),
        (0 : ℝ) / Vector2Length Real.sqrt (⟨-2, 0⟩ : Vector2 ℝ)⟩ : Vector2 ℝ)
    else ⟨0, 0⟩) = ⟨-1, 0⟩
  rw [hlen, if_pos (by norm_num : (0 : ℝ) < 2)]
  apply Vector2_ext <;> norm_num

theorem stepB_eval : glideStep Real.sqrt 1 (⟨⟨0, 0⟩, ⟨28, 5⟩, false⟩ : KinematicInfo ℝ)
    ⟨1, EntityData.obstacle cexRectB⟩ = ⟨⟨0, 0⟩, ⟨12, 5⟩, false⟩ := by
  rw [glideStep_obstacle_eq, fix_cexRectB]
  rw [show (⟨⟨0, 0⟩, ⟨28, 5⟩, false⟩ : KinematicInfo ℝ).pos = (⟨28, 5⟩ : Vector2 ℝ) from rfl,
    closest_B_28, dist_B_28,
    if_pos (by norm_num [player_radius] : (2 : ℝ) < player_radius ℝ)]
  rw [show Vector2Subtract (⟨28, 5⟩ : Vector2 ℝ) ⟨30, 5⟩ = (⟨-2, 0⟩ : Vector2 ℝ) from by
    apply Vector2_ext <;> norm_num [Vector2Subtract], normalize_neg2_0]
  show KinematicInfo.mk
    (Vector2Scale (Vector2Reflect (⟨0, 0⟩ : Vector2 ℝ) ⟨-1, 0⟩) 1)
    (Vector2Add ⟨30, 5⟩ (Vector2Scale ⟨-1, 0⟩ (player_radius ℝ)))
    false = ⟨⟨0, 0⟩, ⟨12, 5⟩, false⟩
  rw [show Vector2Scale (Vector2Reflect (⟨0, 0⟩ : Vector2 ℝ) ⟨-1, 0⟩) 1 =
      (⟨0, 0⟩ : Vector2 ℝ) from by
      apply Vector2_ext <;> norm_num [Vector2Scale, Vector2Reflect, Vector2DotProduct,
        Vector2Subtract],
    show Vector2Add (⟨30, 5⟩ : Vector2 ℝ) (Vector2Scale ⟨-1, 0⟩ (player_radius ℝ)) =
      (⟨12, 5⟩ : Vector2 ℝ) from by
      apply Vector2_ext <;> norm_num [Vector2Add, Vector2Scale, player_radius]]

theorem glide_AB_eval : GlideAndBounce Real.sqrt cexStoreAB cexKinAB 1 =
    ⟨⟨0, 0⟩, ⟨12, 5⟩, false⟩ := by
  have hinit : ({ cexKinAB with onGround := false } : KinematicInfo ℝ) = cexKinAB := rfl
  show (glideStep Real.sqrt 1 (glideStep Real.sqrt 1 { cexKinAB with onGround := false }
    ⟨0, EntityData.obstacle cexRectA⟩) ⟨1, EntityData.obstacle cexRectB⟩) =
      ⟨⟨0, 0⟩, ⟨12, 5⟩, false⟩
  rw [hinit, stepA_eval, stepB_eval]

theorem closest_A_12 : closestPointOnRect cexRectA (⟨12, 5⟩ : Vector2 ℝ) = ⟨10, 5⟩ := by
  apply Vector2_ext
  · rw [closestPointOnRect_x]
    show clamp (12 : ℝ) 0 (0 + 10) = 10
    rw [clamp_eq_of_gt _ _ _ (by norm_num) (by norm_num)]
    norm_num
  · rw [closestPointOnRect_y]
    show clamp (5 : ℝ) 0 (0 + 10) = 5
    rw [clamp_eq_of_mem _ _ _ (by norm_num) (by norm_num)]

theorem dist_A_12 : Vector2Distance Real.sqrt (⟨10, 5⟩ : Vector2 ℝ) ⟨12, 5⟩ = 2 := by
  show Real.sqrt (((10 : ℝ) - 12) * ((10 : ℝ) - 12) + ((5 : ℝ) - 5) * ((5 : ℝ) - 5)) = 2
  rw [show ((10 : ℝ) - 12) * ((10 : ℝ) - 12) + ((5 : ℝ) - 5) * ((5 : ℝ) - 5) = 4 from by
    norm_num]
  exact sqrt_eval 4 2 (by norm_num) (by norm_num)

/-- Claim C2, failing part.  First input: a store with one obstacle
[0,100]x[0,100] and the position at its center (50,50) — the position is
a fixed point of `GlideAndBounce` and its distance to the rectangle is 0,
far below the radius 18.  Second input: obstacles [0,10]x[0,10] then
[30,130]x[-50,50] with the position (25,5) outside both — resolving the
first pushes the position to (28,5), resolving the second pushes it back
to (12,5), which is strictly outside both rectangles but only 2 away from
the first one. -/
theorem c2_counterexample :
    ((⟨0, EntityData.obstacle cexRectInside⟩ : Entity ℝ) ∈ cexStoreInside ∧
      distToRect Real.sqrt (FixNegativeRect cexRectInside)
        ((GlideAndBounce Real.sqrt cexStoreInside cexKinInside 1).pos) < player_radius ℝ) ∧
    ((⟨0, EntityData.obstacle cexRectA⟩ : Entity ℝ) ∈ cexStoreAB ∧
      closestPointOnRect (FixNegativeRect cexRectA)
          ((GlideAndBounce Real.sqrt cexStoreAB cexKinAB 1).pos) ≠
        (GlideAndBounce Real.sqrt cexStoreAB cexKinAB 1).pos ∧
      distToRect Real.sqrt (FixNegativeRect cexRectA)
        ((GlideAndBounce Real.sqrt cexStoreAB cexKinAB 1).pos) < player_radius ℝ) := by
  refine ⟨⟨List.mem_cons_self _ _, ?_⟩, List.mem_cons_self _ _, ?_, ?_⟩
  · rw [glide_inside_fixed]
    unfold distToRect
    rw [fix_cexRectInside, closest_inside, dist_self_zero]
    norm_num [player_radius]
  · rw [glide_AB_eval]
    rw [show ((⟨⟨0, 0⟩, ⟨12, 5⟩, false⟩ : KinematicInfo ℝ)).pos = (⟨12, 5⟩ : Vector2 ℝ)
      from rfl, fix_cexRectA, closest_A_12]
    intro heq
    have hx := congrArg Vector2.x heq
    simp only at hx
    norm_num at hx
  · rw [glide_AB_eval]
    unfold distToRect
    rw [show ((⟨⟨0, 0⟩, ⟨12, 5⟩, false⟩ : KinematicInfo ℝ)).pos = (⟨12, 5⟩ : Vector2 ℝ)
      from rfl, fix_cexRectA, closest_A_12, dist_A_12]
    norm_num [player_radius]

theorem closest_W : closestPointOnRect wRect wKin.pos = ⟨100, 50⟩ := by
  apply Vector2_ext
  · rw [closestPointOnRect_x]
    show clamp (200 : ℝ) 0 (0 + 100) = 100
    rw [clamp_eq_of_gt _ _ _ (by norm_num) (by norm_num)]
    norm_num
  · rw [closestPointOnRect_y]
    show clamp (50 : ℝ) 0 (0 + 100) = 50
    rw [clamp_eq_of_mem _ _ _ (by norm_num) (by norm_num)]

/-- Applying `c2_resolved_outside` at a concrete single-obstacle store
with the position well outside the obstacle. -/
theorem c2_witness :
    player_radius ℝ ≤ distToRect Real.sqrt (FixNegativeRect wRect)
      ((GlideAndBounce Real.sqrt wStore wKin 1).pos) :=
  c2_resolved_outside wStore wKin 1 wRect rfl (by
    rw [fix_wRect, closest_W]
    intro heq
    have hx := congrArg Vector2.x heq
    simp only at hx
    norm_num [wKin] at hx)

end Gravitas
